import Mathlib

/-!
Shallow embedding of the repository static-analysis engine of the
wiki-generation-be service (source: src/analyzer/repo_analyzer.py together
with the record types of src/types/files.py).

Conventions of the embedding:

* Python snake_case names are kept, written in camelCase where Lean style
  demands it: build_repo_model becomes buildRepoModel, _should_include_file
  becomes shouldIncludeFile, _resolve_relative_import becomes
  resolveRelativeImport, and so on.
* Filesystem paths are lists of segments (PathSegs).  A repository snapshot
  (FS) records the outcome of os.walk on a fixed tree: the directories and
  the files in traversal order, each file carrying its decoded text as an
  Option String (none models a file whose bytes cannot be read or decoded;
  text is stored after universal-newline decoding, so every line break in a
  readable file's content is the newline character).
* Python regular expressions are transcribed as deterministic character-list
  parsers.  The classes \w and \s are modelled over ASCII, which covers all
  inputs considered here.  Where the regex engine's backtracking can matter
  the transcription spells out the alternative orders explicitly.
* Operations of pathlib that raise ValueError (relative_to on a path that is
  not under the root, with_suffix on a path without a name) are Except-valued,
  and the per-file analysis pipeline propagates such errors exactly as the
  uncaught Python exceptions do (the try/except in build_repo_model catches
  only UnicodeDecodeError and OSError).
* The index-based while loops of the extractors are transcribed with a fuel
  argument initialised to the number of lines; every step advances the line
  index by at least one while consuming one unit of fuel, so the fuel is
  never exhausted before the index passes the end of the list.
-/

namespace WikiGen

/-! ### Character and string helpers (Python string methods) -/

/-- ASCII model of the whitespace stripped by Python str.strip() and matched
by the regex class \s. -/
def pyIsSpace (c : Char) : Bool :=
  c = ' ' || c = '\t' || c = '\n' || c = '\r' || c = '\x0b' || c = '\x0c'

/-- ASCII model of the regex class \w. -/
def isWordChar (c : Char) : Bool :=
  c.isAlphanum || c = '_'

/-- The single-quote character, written by code point to keep it out of the
source text. -/
def squote : Char := Char.ofNat 39

/-- The double-quote character. -/
def dquote : Char := '"'

/-- The opening-brace character, written by code point. -/
def lbrace : Char := Char.ofNat 123

/-- Python s.lstrip(chars): drop leading characters belonging to the set. -/
def lstripSet (set : List Char) (s : String) : String :=
  (s.toList.dropWhile (fun c => set.contains c)).asString

/-- Python s.rstrip(chars): drop trailing characters belonging to the set. -/
def rstripSet (set : List Char) (s : String) : String :=
  ((s.toList.reverse.dropWhile (fun c => set.contains c)).reverse).asString

/-- Python s.strip(chars). -/
def stripSet (set : List Char) (s : String) : String :=
  rstripSet set (lstripSet set s)

/-- Python s.strip() with no argument. -/
def pyStrip (s : String) : String :=
  (((s.toList.dropWhile pyIsSpace).reverse.dropWhile pyIsSpace).reverse).asString

/-- Python s.startswith(pre). -/
def strStartsWith (s pre : String) : Bool :=
  pre.toList.isPrefixOf s.toList

/-- Python s.endswith(suf). -/
def strEndsWith (s suf : String) : Bool :=
  suf.toList.isSuffixOf s.toList

/-- Python s.lower() (ASCII model). -/
def toLowerStr (s : String) : String :=
  (s.toList.map Char.toLower).asString

/-- Auxiliary for splitOnChar; acc holds the current chunk reversed. -/
def splitCharAux (sep : Char) : List Char → List Char → List String
  | [], acc => [acc.reverse.asString]
  | c :: cs, acc =>
    if c = sep then acc.reverse.asString :: splitCharAux sep cs []
    else splitCharAux sep cs (c :: acc)

/-- Python s.split(sep) for a one-character separator; the empty string
splits to a single empty chunk, as in Python. -/
def splitOnChar (sep : Char) (s : String) : List String :=
  splitCharAux sep s.toList []

/-- Python sep.join(parts). -/
def joinWith (sep : String) : List String → String
  | [] => ""
  | x :: xs => xs.foldl (fun acc y => acc ++ sep ++ y) x

/-- Python s.count(qqq) for a three-character run of the same character q
(the only shape the analyzer counts): non-overlapping occurrences scanned
left to right. -/
def countTriple (q : Char) : List Char → Nat
  | c1 :: c2 :: c3 :: rest =>
    if c1 = q && c2 = q && c3 = q then 1 + countTriple q rest
    else countTriple q (c2 :: c3 :: rest)
  | _ => 0

/-- A string of three copies of the character q (a triple-quote marker). -/
def tripleOf (q : Char) : String := ([q, q, q]).asString

/-- Auxiliary for countLines: the Bool records whether any character of the
current (not yet newline-terminated) line chunk has been seen. -/
def countLinesAux : List Char → Bool → Nat
  | [], seen => if seen then 1 else 0
  | c :: cs, _ => if c = '\n' then 1 + countLinesAux cs false else countLinesAux cs true

/-- Number of lines produced by iterating a text file in Python
(sum(1 for _ in f) in build_repo_model): one line per newline character plus
one final line when the text does not end with a newline. -/
def countLines (s : String) : Nat := countLinesAux s.toList false

/-! ### Path helpers (pathlib over segment lists) -/

/-- A filesystem path, as a list of segments. -/
abbrev PathSegs := List String

/-- pathlib Path.parent; the parent of the filesystem root is itself. -/
def pathParent (p : PathSegs) : PathSegs :=
  match p with
  | [] => []
  | _ => p.dropLast

/-- Apply pathParent n times (the per-dot ascent loop of
_resolve_relative_import). -/
def ascend : Nat → PathSegs → PathSegs
  | 0, p => p
  | n + 1, p => ascend n (pathParent p)

/-- pathlib Path.name over the segment form (empty for the root). -/
def lastSeg (p : PathSegs) : String := p.getLast?.getD ""

/-- Index of the last dot of a name, if any. -/
def lastDotIdx (cs : List Char) : Option Nat :=
  match cs.reverse.findIdx? (fun c => c = '.') with
  | none => none
  | some k => some (cs.length - 1 - k)

/-- Length of pathlib Path.suffix for a final path component: the run from
the last dot, provided that dot is neither the first nor the last
character. -/
def suffixLen (name : String) : Nat :=
  let cs := name.toList
  match lastDotIdx cs with
  | none => 0
  | some i => if 0 < i ∧ i < cs.length - 1 then cs.length - i else 0

/-- pathlib Path.suffix of a final path component. -/
def nameSuffix (name : String) : String :=
  (name.toList.drop (name.toList.length - suffixLen name)).asString

/-- The component without its suffix (pathlib stem). -/
def nameStem (name : String) : String :=
  (name.toList.take (name.toList.length - suffixLen name)).asString

/-- pathlib Path.with_suffix: replaces the suffix of the final component,
raising ValueError when the path has no name. -/
def withSuffix (p : PathSegs) (suf : String) : Except String PathSegs :=
  match p.getLast? with
  | none => Except.error "with_suffix: path has an empty name"
  | some name => Except.ok (p.dropLast ++ [nameStem name ++ suf])

/-- pathlib Path.relative_to: raises ValueError when root is not a prefix. -/
def relativeTo (p root : PathSegs) : Except String PathSegs :=
  if root.isPrefixOf p then Except.ok (p.drop root.length)
  else Except.error "relative_to: not a subpath"

/-- str() of a root-relative pathlib path (posix separators; the empty
relative path prints as a dot, as in pathlib). -/
def relPathStr (p : PathSegs) : String :=
  if p.isEmpty then "." else joinWith "/" p

/-- str() of an absolute path. -/
def absPathStr (p : PathSegs) : String := "/" ++ joinWith "/" p

/-- pathlib path joining with one component coming from a dotted module
path: empty components are dropped by pathlib's parser. -/
def joinSeg (p : PathSegs) (seg : String) : PathSegs :=
  if seg = "" then p else p ++ [seg]

/-- One component of (dir / import_path).resolve() for the TypeScript
resolver: pathlib drops empty and single-dot components at parse time and
resolve() folds double-dot components into the parent (there are no symlinks
in the model). -/
def joinTsSeg (p : PathSegs) (seg : String) : PathSegs :=
  if seg = "" || seg = "." then p
  else if seg = ".." then pathParent p
  else p ++ [seg]

/-- (dir / import_path).resolve() over segment lists. -/
def tsResolve (dir : PathSegs) (importPath : String) : PathSegs :=
  (splitOnChar '/' importPath).foldl joinTsSeg dir

/-! ### Data model (src/types/files.py) -/

/-- A function or method recovered from source text. -/
structure Function where
  name : String
  arguments : String
  description : Option String
  deriving DecidableEq, Repr

/-- One analyzed file of the repository. -/
structure File where
  name : String
  description : Option String
  number_of_lines : Nat
  local_path : String
  imports : List String
  functions : List Function
  deriving DecidableEq, Repr

/-- The categorized repository model. -/
structure Repo where
  readme : List File
  directories : List String
  files : List File
  package_files : List File
  deriving DecidableEq, Repr

/-! ### Regex transcriptions

Each Python regex of the analyzer is transcribed as a parser over character
lists.  re.match anchors at the start of the string and ignores trailing
text, so every parser consumes a prefix and discards the remainder. -/

/-- Consume a literal, or fail. -/
def dropLiteral (lit : List Char) (cs : List Char) : Option (List Char) :=
  if lit.isPrefixOf cs then some (cs.drop lit.length) else none

/-- Consume at least one whitespace character (the regex piece of one or
more \s). -/
def dropSpaces1 (cs : List Char) : Option (List Char) :=
  match cs with
  | c :: rest => if pyIsSpace c then some (rest.dropWhile pyIsSpace) else none
  | [] => none

/-- The optional regex group of the keyword "async" followed by whitespace. -/
def dropAsyncKw (cs : List Char) : Option (List Char) :=
  (dropLiteral "async".toList cs).bind dropSpaces1

/-- The optional regex group of the keyword "export" followed by whitespace. -/
def dropExportKw (cs : List Char) : Option (List Char) :=
  (dropLiteral "export".toList cs).bind dropSpaces1

/-- Python regex from-with-module-then-import (repo_analyzer.py line 211):
the captured group is the maximal run of word or dot characters after
"from"; since a shortened capture would leave a word or dot character where
whitespace is required, the greedy run is the only candidate. -/
def matchFromImport (line : String) : Option String :=
  (dropLiteral "from".toList line.toList).bind fun r1 =>
  (dropSpaces1 r1).bind fun r2 =>
  let modl := r2.takeWhile (fun c => isWordChar c || c = '.')
  if modl.isEmpty then none else
  (dropSpaces1 (r2.drop modl.length)).bind fun r4 =>
  (dropLiteral "import".toList r4).map fun _ => modl.asString

/-- Python regex import-then-module (repo_analyzer.py line 230). -/
def matchImportModule (line : String) : Option String :=
  (dropLiteral "import".toList line.toList).bind fun r1 =>
  (dropSpaces1 r1).bind fun r2 =>
  let modl := r2.takeWhile (fun c => isWordChar c || c = '.')
  if modl.isEmpty then none else some modl.asString

/-- Core of the Python def regex (repo_analyzer.py line 241) after the
optional async group: def, whitespace, name, optional whitespace, the
parenthesised argument text, and a colon directly after the closing
parenthesis. -/
def pyDefCore (cs : List Char) : Option (String × String) :=
  (dropLiteral "def".toList cs).bind fun r1 =>
  (dropSpaces1 r1).bind fun r2 =>
  let nm := r2.takeWhile isWordChar
  if nm.isEmpty then none else
  let r3 := (r2.drop nm.length).dropWhile pyIsSpace
  (dropLiteral ['('] r3).bind fun r4 =>
  let args := r4.takeWhile (fun c => c ≠ ')')
  (dropLiteral [')'] (r4.drop args.length)).bind fun r5 =>
  (dropLiteral [':'] r5).map fun _ => (nm.asString, args.asString)

/-- The Python def regex.  When the async branch applies, regex backtracking
into the empty optional group cannot succeed, because the text then starts
with "async" rather than "def". -/
def matchPyDef (line : String) : Option (String × String) :=
  match dropAsyncKw line.toList with
  | some rest => pyDefCore rest
  | none => pyDefCore line.toList

/-- Core of the TypeScript function-declaration regex
(repo_analyzer.py line 340) after the optional export and async groups. -/
def tsFunctionCore (cs : List Char) : Option (String × String) :=
  (dropLiteral "function".toList cs).bind fun r1 =>
  (dropSpaces1 r1).bind fun r2 =>
  let nm := r2.takeWhile isWordChar
  if nm.isEmpty then none else
  let r3 := (r2.drop nm.length).dropWhile pyIsSpace
  (dropLiteral ['('] r3).bind fun r4 =>
  let args := r4.takeWhile (fun c => c ≠ ')')
  (dropLiteral [')'] (r4.drop args.length)).map fun _ => (nm.asString, args.asString)

/-- The TypeScript function-declaration regex, trying the optional groups in
the regex engine's backtracking order. -/
def matchTsFunction (line : String) : Option (String × String) :=
  let cs := line.toList
  ((dropExportKw cs).bind fun r => (dropAsyncKw r).bind tsFunctionCore).orElse fun _ =>
  ((dropExportKw cs).bind tsFunctionCore).orElse fun _ =>
  ((dropAsyncKw cs).bind tsFunctionCore).orElse fun _ =>
  tsFunctionCore cs

/-- First alternative of the arrow-function tail: parenthesised arguments,
optional whitespace, and an arrow. -/
def tsArrowTail1 (cs : List Char) : Option String :=
  (dropLiteral ['('] cs).bind fun r1 =>
  let args := r1.takeWhile (fun c => c ≠ ')')
  (dropLiteral [')'] (r1.drop args.length)).bind fun r2 =>
  (dropLiteral "=>".toList (r2.dropWhile pyIsSpace)).map fun _ => args.asString

/-- Second alternative of the arrow-function tail: async, optional
whitespace, then the parenthesised tail. -/
def tsArrowTail2 (cs : List Char) : Option String :=
  (dropLiteral "async".toList cs).bind fun r1 =>
  tsArrowTail1 (r1.dropWhile pyIsSpace)

/-- Core of the arrow-function regex (repo_analyzer.py line 352) after the
optional export group: const, whitespace, name, an equals sign, then one of
the two tail alternatives in order. -/
def tsArrowCore (cs : List Char) : Option (String × String) :=
  (dropLiteral "const".toList cs).bind fun r1 =>
  (dropSpaces1 r1).bind fun r2 =>
  let nm := r2.takeWhile isWordChar
  if nm.isEmpty then none else
  let r3 := (r2.drop nm.length).dropWhile pyIsSpace
  (dropLiteral ['='] r3).bind fun r4 =>
  let r5 := r4.dropWhile pyIsSpace
  ((tsArrowTail1 r5).orElse fun _ => tsArrowTail2 r5).map fun args => (nm.asString, args)

/-- The arrow-function regex. -/
def matchTsArrow (line : String) : Option (String × String) :=
  let cs := line.toList
  ((dropExportKw cs).bind tsArrowCore).orElse fun _ => tsArrowCore cs

/-- Core of the bare-method regex (repo_analyzer.py line 366) after the
leading whitespace and the optional async group: name, optional whitespace,
the parenthesised argument text, optional whitespace, and an opening
brace. -/
def tsMethodCore (cs : List Char) : Option (String × String) :=
  let nm := cs.takeWhile isWordChar
  if nm.isEmpty then none else
  let r1 := (cs.drop nm.length).dropWhile pyIsSpace
  (dropLiteral ['('] r1).bind fun r2 =>
  let args := r2.takeWhile (fun c => c ≠ ')')
  (dropLiteral [')'] (r2.drop args.length)).bind fun r3 =>
  (dropLiteral [lbrace] (r3.dropWhile pyIsSpace)).map fun _ => (nm.asString, args.asString)

/-- The bare-method regex.  Here regex backtracking from the async group to
the empty optional group matters (a line beginning with "async (" is matched
with "async" as the name), so both orders are tried. -/
def matchTsMethod (line : String) : Option (String × String) :=
  let cs := line.toList.dropWhile pyIsSpace
  ((dropAsyncKw cs).bind tsMethodCore).orElse fun _ => tsMethodCore cs

/-- The method-capture step of the TypeScript extractor
(repo_analyzer.py lines 366 to 379): a regex match produces a Function
unless the stripped line starts with one of the literal prefixes "if",
"for" or "while". -/
def tsMethodCapture (desc : Option String) (line : String) : Option Function :=
  match matchTsMethod line with
  | none => none
  | some (nm, args) =>
    if strStartsWith (pyStrip line) "if" || strStartsWith (pyStrip line) "for" ||
        strStartsWith (pyStrip line) "while" then none
    else some { name := nm, arguments := args, description := desc }

/-- The quoted-module part of the TypeScript import regex
(repo_analyzer.py line 307) tried at one position: from, whitespace, either
kind of quote, a nonempty run without quotes, and a closing quote of either
kind. -/
def tsFromAt (cs : List Char) : Option String :=
  (dropLiteral "from".toList cs).bind fun r1 =>
  (dropSpaces1 r1).bind fun r2 =>
  match r2 with
  | q :: rest =>
    if q = dquote || q = squote then
      let seg := rest.takeWhile (fun c => c ≠ dquote && c ≠ squote)
      if seg.isEmpty then none else
      match rest.drop seg.length with
      | c :: _ => if c = dquote || c = squote then some seg.asString else none
      | [] => none
    else none
  | [] => none

/-- The TypeScript import regex: a literal "import" prefix, a greedy gap,
then the quoted from-module.  The greedy gap makes the regex engine pick the
match at the latest possible position, so the scan below keeps the last
success. -/
def matchTsImportFrom (line : String) : Option String :=
  match dropLiteral "import".toList line.toList with
  | none => none
  | some rest =>
    (List.range (rest.length + 1)).foldl
      (fun acc k =>
        match tsFromAt (rest.drop k) with
        | some s => some s
        | none => acc) none

/-! ### Import resolvers (repo_analyzer.py lines 386 to 464) -/

/-- The shared probe tail of the two Python resolvers: try the target with a
py suffix, then try an init module inside the target directory, each
validated against the known file set; pathlib errors propagate. -/
def probePy (targetPath rootPath : PathSegs) (allFiles : List String) :
    Except String (Option String) :=
  match withSuffix targetPath ".py" with
  | Except.error e => Except.error e
  | Except.ok pyTarget =>
    match relativeTo pyTarget rootPath with
    | Except.error e => Except.error e
    | Except.ok rel =>
      if allFiles.contains (relPathStr rel) then Except.ok (some (relPathStr rel))
      else
        match relativeTo (targetPath ++ ["__init__.py"]) rootPath with
        | Except.error e => Except.error e
        | Except.ok rel2 =>
          if allFiles.contains (relPathStr rel2) then Except.ok (some (relPathStr rel2))
          else Except.ok none

/-- _resolve_relative_import: strip the leading dots, ascend one parent
directory per leading dot starting from the importing file's directory (the
loop runs once per dot, although the comment in the source says "beyond the
first"), descend through the remaining dotted parts, and probe. -/
def resolveRelativeImport (modulePath : String) (filePath rootPath : PathSegs)
    (allFiles : List String) : Except String (Option String) :=
  let strippedChars := modulePath.toList.dropWhile (fun c => c = '.')
  let relativeParts := splitOnChar '.' strippedChars.asString
  let dots := modulePath.toList.length - strippedChars.length
  let currentDir := ascend dots (pathParent filePath)
  let targetPath := relativeParts.foldl joinSeg currentDir
  probePy targetPath rootPath allFiles

/-- _resolve_absolute_import: descend from the repository root through the
dotted parts and probe. -/
def resolveAbsoluteImport (modulePath : String) (rootPath : PathSegs)
    (allFiles : List String) : Except String (Option String) :=
  let parts := splitOnChar '.' modulePath
  let targetPath := parts.foldl joinSeg rootPath
  probePy targetPath rootPath allFiles

/-- Extension probing loop of _resolve_ts_relative_import. -/
def probeTsSuffixes (targetPath rootPath : PathSegs) (allFiles : List String) :
    List String → Except String (Option String)
  | [] => Except.ok none
  | ext :: rest =>
    match withSuffix targetPath ext with
    | Except.error e => Except.error e
    | Except.ok t =>
      match relativeTo t rootPath with
      | Except.error e => Except.error e
      | Except.ok rel =>
        if allFiles.contains (relPathStr rel) then Except.ok (some (relPathStr rel))
        else probeTsSuffixes targetPath rootPath allFiles rest

/-- Index-file probing loop of _resolve_ts_relative_import. -/
def probeTsIndex (targetPath rootPath : PathSegs) (allFiles : List String) :
    List String → Except String (Option String)
  | [] => Except.ok none
  | ext :: rest =>
    match relativeTo (targetPath ++ ["index" ++ ext]) rootPath with
    | Except.error e => Except.error e
    | Except.ok rel =>
      if allFiles.contains (relPathStr rel) then Except.ok (some (relPathStr rel))
      else probeTsIndex targetPath rootPath allFiles rest

/-- _resolve_ts_relative_import: resolve against the importing file's
directory, probe the ts, tsx and js suffixes in order, then the index files
in the resolved directory. -/
def resolveTsRelativeImport (importPath : String) (filePath rootPath : PathSegs)
    (allFiles : List String) : Except String (Option String) :=
  let currentDir := pathParent filePath
  let targetPath := tsResolve currentDir importPath
  match probeTsSuffixes targetPath rootPath allFiles [".ts", ".tsx", ".js"] with
  | Except.error e => Except.error e
  | Except.ok (some f) => Except.ok (some f)
  | Except.ok none => probeTsIndex targetPath rootPath allFiles [".ts", ".tsx", ".js"]

/-! ### File descriptions (repo_analyzer.py lines 467 to 539) -/

/-- The header loop of the Python branch of _extract_file_description: skip
blank and import lines, collect hash-comment lines with their markers
stripped, and stop at the first other line, returning the collected text and
the remaining lines. -/
def pyHeaderScan : List String → List String × List String
  | [] => ([], [])
  | l :: ls =>
    let s := pyStrip l
    if s = "" then pyHeaderScan ls
    else if strStartsWith s "#" then
      let (a, r) := pyHeaderScan ls
      (lstripSet ['#', ' '] s :: a, r)
    else if strStartsWith s "from " || strStartsWith s "import " then pyHeaderScan ls
    else ([], l :: ls)

/-- The module-docstring part of the Python branch of
_extract_file_description, applied to the lines remaining after the header
scan.  Only the double-quote marker is recognised here. -/
def pyModuleDocstring (rest : List String) : List String :=
  match rest with
  | [] => []
  | l :: ls =>
    let s := pyStrip l
    if strStartsWith s (tripleOf dquote) then
      if 2 ≤ countTriple dquote s.toList then
        [pyStrip (stripSet [dquote] s)]
      else
        let first := lstripSet [dquote] s
        match ls.findIdx? (fun x => strEndsWith (pyStrip x) (tripleOf dquote)) with
        | some k =>
          first :: (ls.take k).map pyStrip ++ [rstripSet [dquote] (pyStrip (ls.getD k ""))]
        | none => first :: ls.map pyStrip
    else []

/-- The TypeScript branch of _extract_file_description: collect leading line
comments, allow single-line block comments to continue the scan, start of a
multi-line block comment collects its first line and stops, and any other
nonblank line stops. -/
def tsDescScan : List String → List String → List String
  | [], acc => acc
  | l :: ls, acc =>
    let s := pyStrip l
    if s = "" then tsDescScan ls acc
    else if strStartsWith s "//" then tsDescScan ls (acc ++ [lstripSet ['/', ' '] s])
    else if strStartsWith s "/*" then
      if strEndsWith s "*/" then
        tsDescScan ls (acc ++ [rstripSet [' ', '*', '/'] (lstripSet ['/', '*', ' '] s)])
      else acc ++ [lstripSet ['/', '*', ' '] s]
    else acc

/-- _extract_file_description.  An empty collected list yields no
description; a nonempty list is joined and stripped (as in the source, this
can yield the empty string). -/
def extractFileDescription (content : String) (fileType : String) : Option String :=
  let lines := splitOnChar '\n' content
  let descriptionLines :=
    if fileType = "python" then
      let (hdr, rest) := pyHeaderScan lines
      hdr ++ pyModuleDocstring rest
    else if fileType = "typescript" then tsDescScan lines []
    else []
  if descriptionLines.isEmpty then none
  else some (pyStrip (joinWith "\n" descriptionLines))

/-! ### Function docstrings (repo_analyzer.py lines 246 to 271) -/

/-- Which triple-quote marker, if any, opens the stripped line. -/
def pyDocstringQuote (s : String) : Option Char :=
  if strStartsWith s (tripleOf dquote) then some dquote
  else if strStartsWith s (tripleOf squote) then some squote
  else none

/-- The docstring lookahead performed for every matched Python def at line
index j onward: skip blank lines; if the next line opens a triple-quoted
string with both markers on that line it is taken as a single-line
docstring, otherwise raw lines are accumulated until a line whose stripped
form ends with the marker (or the file ends), and the result is joined and
stripped. -/
def pyFuncDocstring (lines : List String) (j : Nat) : Option String :=
  match (lines.drop j).findIdx? (fun l => pyStrip l ≠ "") with
  | none => none
  | some k0 =>
    let nextLine := pyStrip (lines.getD (j + k0) "")
    match pyDocstringQuote nextLine with
    | none => none
    | some q =>
      if 2 ≤ countTriple q nextLine.toList then
        some (pyStrip (stripSet [q] nextLine))
      else
        let first := lstripSet [q] nextLine
        let rest := lines.drop (j + k0 + 1)
        match rest.findIdx? (fun l => strEndsWith (pyStrip l) (tripleOf q)) with
        | some k =>
          some (pyStrip (joinWith "\n" (first :: rest.take k ++ [rstripSet [q] (rest.getD k "")])))
        | none => some (pyStrip (joinWith "\n" (first :: rest)))

/-! ### Python extractor (_extract_python_info, repo_analyzer.py lines 186 to 281) -/

/-- The per-line dependency step of the Python extractor: only lines whose
stripped form starts with "from " or with "import " are examined, the module
path is taken from the regex, relative and src-rooted absolute module
paths are resolved, and a failed lookup contributes nothing.  Resolver
errors (pathlib ValueError) propagate. -/
def pyLineDeps (line : String) (filePath rootPath : PathSegs) (allFiles : List String) :
    Except String (List String) :=
  if strStartsWith line "from " then
    match matchFromImport line with
    | some modulePath =>
      if strStartsWith modulePath "." then
        match resolveRelativeImport modulePath filePath rootPath allFiles with
        | Except.error e => Except.error e
        | Except.ok d => Except.ok d.toList
      else if strStartsWith modulePath "src" then
        match resolveAbsoluteImport modulePath rootPath allFiles with
        | Except.error e => Except.error e
        | Except.ok d => Except.ok d.toList
      else Except.ok []
    | none => Except.ok []
  else if strStartsWith line "import " then
    match matchImportModule line with
    | some modulePath =>
      if strStartsWith modulePath "src" then
        match resolveAbsoluteImport modulePath rootPath allFiles with
        | Except.error e => Except.error e
        | Except.ok d => Except.ok d.toList
      else Except.ok []
    | none => Except.ok []
  else Except.ok []

/-- The while loop of _extract_python_info over line index i, transcribed
with a fuel argument (one unit per iteration; the index rises by one each
step, so fuel equal to the number of lines is never exhausted).  Each
iteration captures the stripped line as an import when it starts with
an import keyword, contributes at most one resolved dependency, and captures
at most one Function via the def regex with its docstring looked up below the
signature. -/
def pyLoopAux (lines : List String) (filePath rootPath : PathSegs)
    (allFiles : List String) : Nat → Nat →
    Except String (List String × List String × List Function)
  | 0, _ => Except.ok ([], [], [])
  | fuel + 1, i =>
    if h : i < lines.length then
      let line := pyStrip (lines.get ⟨i, h⟩)
      let lineImports :=
        if strStartsWith line "import " || strStartsWith line "from " then [line] else []
      match pyLineDeps line filePath rootPath allFiles with
      | Except.error e => Except.error e
      | Except.ok lineDeps =>
        let lineFns :=
          match matchPyDef line with
          | some (nm, args) => [Function.mk nm args (pyFuncDocstring lines (i + 1))]
          | none => []
        match pyLoopAux lines filePath rootPath allFiles fuel (i + 1) with
        | Except.error e => Except.error e
        | Except.ok (ds, is, fns) =>
          Except.ok (lineDeps ++ ds, lineImports ++ is, lineFns ++ fns)
    else Except.ok ([], [], [])

/-- _extract_python_info. -/
def extractPythonInfo (content : String) (filePath rootPath : PathSegs)
    (allFiles : List String) :
    Except String (List String × List String × List Function × Option String) :=
  let lines := splitOnChar '\n' content
  let fileDescription := extractFileDescription content "python"
  match pyLoopAux lines filePath rootPath allFiles lines.length 0 with
  | Except.error e => Except.error e
  | Except.ok (ds, is, fns) => Except.ok (ds, is, fns, fileDescription)

/-! ### TypeScript extractor (_extract_typescript_info, repo_analyzer.py lines 284 to 383) -/

/-- The per-line dependency step of the TypeScript extractor. -/
def tsLineDeps (line : String) (filePath rootPath : PathSegs) (allFiles : List String) :
    Except String (List String) :=
  if strStartsWith line "import " then
    match matchTsImportFrom line with
    | some importPath =>
      if strStartsWith importPath "." then
        match resolveTsRelativeImport importPath filePath rootPath allFiles with
        | Except.error e => Except.error e
        | Except.ok d => Except.ok d.toList
      else Except.ok []
    | none => Except.ok []
  else Except.ok []

/-- The three function-capture patterns applied to one stripped line, in
source order: named function declarations, arrow-function assignments, and
the guarded bare-method pattern. -/
def tsLineCaptures (desc : Option String) (line : String) : List Function :=
  (match matchTsFunction line with
   | some (nm, args) => [Function.mk nm args desc]
   | none => []) ++
  (match matchTsArrow line with
   | some (nm, args) => [Function.mk nm args desc]
   | none => []) ++
  (match tsMethodCapture desc line with
   | some f => [f]
   | none => [])

/-- The while loop of _extract_typescript_info, with fuel as in the Python
loop.  A line opening a JSDoc block consumes the block (through the first
line whose stripped form ends the comment); the captures are then applied to
the line directly after the block with the joined block as description, and
the loop resumes after that line — note the import capture is not applied to
that line, exactly as in the source.  A block without a terminator consumes
the rest of the file. -/
def tsLoopAux (lines : List String) (filePath rootPath : PathSegs)
    (allFiles : List String) : Nat → Nat →
    Except String (List String × List String × List Function)
  | 0, _ => Except.ok ([], [], [])
  | fuel + 1, i =>
    if h : i < lines.length then
      let line := pyStrip (lines.get ⟨i, h⟩)
      let lineImports := if strStartsWith line "import " then [line] else []
      match tsLineDeps line filePath rootPath allFiles with
      | Except.error e => Except.error e
      | Except.ok lineDeps =>
        if strStartsWith line "/**" then
          match (lines.drop i).findIdx? (fun l => strEndsWith (pyStrip l) "*/") with
          | some k =>
            let jsdocLines := (lines.drop i).take (k + 1)
            let desc := some (pyStrip (joinWith "\n" jsdocLines))
            if h2 : i + k + 1 < lines.length then
              let line2 := pyStrip (lines.get ⟨i + k + 1, h2⟩)
              match tsLoopAux lines filePath rootPath allFiles fuel (i + k + 2) with
              | Except.error e => Except.error e
              | Except.ok (ds, is, fns) =>
                Except.ok (lineDeps ++ ds, lineImports ++ is, tsLineCaptures desc line2 ++ fns)
            else Except.ok (lineDeps, lineImports, [])
          | none => Except.ok (lineDeps, lineImports, [])
        else
          match tsLoopAux lines filePath rootPath allFiles fuel (i + 1) with
          | Except.error e => Except.error e
          | Except.ok (ds, is, fns) =>
            Except.ok (lineDeps ++ ds, lineImports ++ is, tsLineCaptures none line ++ fns)
    else Except.ok ([], [], [])

/-- _extract_typescript_info. -/
def extractTypescriptInfo (content : String) (filePath rootPath : PathSegs)
    (allFiles : List String) :
    Except String (List String × List String × List Function × Option String) :=
  let lines := splitOnChar '\n' content
  let fileDescription := extractFileDescription content "typescript"
  match tsLoopAux lines filePath rootPath allFiles lines.length 0 with
  | Except.error e => Except.error e
  | Except.ok (ds, is, fns) => Except.ok (ds, is, fns, fileDescription)

/-- hydrate_files: dispatch on the lower-cased suffix; any other extension
yields empty results. -/
def hydrateFiles (content : String) (filePath rootPath : PathSegs)
    (allFiles : List String) :
    Except String (List String × List String × List Function × Option String) :=
  let ext := toLowerStr (nameSuffix (lastSeg filePath))
  if ext = ".py" then extractPythonInfo content filePath rootPath allFiles
  else if ext = ".ts" || ext = ".tsx" || ext = ".js" then
    extractTypescriptInfo content filePath rootPath allFiles
  else Except.ok ([], [], [], none)

/-! ### Path filter (repo_analyzer.py lines 542 to 601) -/

/-- The fixed case-insensitive directory deny-list. -/
def excludedDirs : List String :=
  ["tests", "test", "example", "examples", ".venv", "venv",
   ".git", ".vscode", "cypress", "node_modules", "__pycache__",
   ".pytest_cache", ".mypy_cache", "dist", "build", ".tox"]

/-- _should_exclude_directory. -/
def shouldExcludeDirectory (dirName : String) : Bool :=
  excludedDirs.contains (toLowerStr dirName)

/-- The extension allow-list of _should_include_file. -/
def includeExtensions : List String := [".py", ".ts", ".js", ".tsx", ".md", ".txt"]

/-- The recognised manifest names of _should_include_file and of the
bucketing step. -/
def manifestNames : List String :=
  ["package.json", "pyproject.toml", "requirements.txt", "poetry.lock"]

/-- _should_include_file over the root-relative path, with the branches in
source order: ancestor-directory veto, extension allow-list, manifest names,
then the final check on a name starting with "test" (transcribed although
the two earlier branches have already returned for every otherwise-eligible
file).  The inline copy of the directory set in the source equals the
helper's set. -/
def shouldIncludeFile (relPath : PathSegs) : Bool :=
  if relPath.dropLast.any shouldExcludeDirectory then false
  else if includeExtensions.contains (toLowerStr (nameSuffix (lastSeg relPath))) then true
  else if manifestNames.contains (toLowerStr (lastSeg relPath)) then true
  else if strStartsWith (lastSeg relPath) "test" then false
  else false

/-! ### The repository snapshot and build_repo_model (repo_analyzer.py lines 21 to 149) -/

/-- One file of the snapshot: its root-relative path and its decoded text
(none models a file that cannot be read or decoded). -/
structure FSEntry where
  path : PathSegs
  content : Option String
  deriving DecidableEq, Repr

/-- A filesystem snapshot as observed by os.walk: whether the root exists,
the resolved absolute root path, and the directories and files of the tree
in traversal order (each file listed once). -/
structure FS where
  rootExists : Bool
  rootPath : PathSegs
  dirs : List PathSegs
  entries : List FSEntry
  deriving DecidableEq, Repr

/-- Whether the walk reaches a file at all: pruning removes every excluded
directory from the descent, so a file is visited exactly when no ancestor
segment is excluded.  (The source's extra continue on an excluded current
directory can never fire after pruning.) -/
def visitedByWalk (e : FSEntry) : Bool :=
  e.path.dropLast.all (fun part => !shouldExcludeDirectory part)

/-- The files taken by either pass: visited by the walk and accepted by
_should_include_file.  Both passes of the source apply the same tests. -/
def includedEntries (fs : FS) : List FSEntry :=
  fs.entries.filter (fun e => visitedByWalk e && shouldIncludeFile e.path)

/-- The known-paths set collected by the first pass. -/
def allFilePaths (fs : FS) : List String :=
  (includedEntries fs).map (fun e => relPathStr e.path)

/-- First-insertion-order deduplication, modelling accumulation into a
Python set (the iteration order of a Python string set is unspecified; the
insertion order is one deterministic choice and no claim here depends on
that order). -/
def dedupFirstAux : List String → List String → List String
  | [], _ => []
  | x :: xs, seen =>
    if seen.contains x then dedupFirstAux xs seen
    else x :: dedupFirstAux xs (x :: seen)

/-- The directory names collected by the first pass: a name enters the set
exactly when its directory's whole path is free of excluded segments (the
parent must be visited and the name itself must survive pruning). -/
def directoriesList (fs : FS) : List String :=
  dedupFirstAux
    ((fs.dirs.filter (fun d => d.all (fun part => !shouldExcludeDirectory part))).map lastSeg) []

/-- The line count recorded for a file: zero when unreadable, otherwise the
Python file-iteration line count. -/
def pyLineCount : Option String → Nat
  | none => 0
  | some c => countLines c

/-- The per-file hydration step of the second pass: files whose suffix
(case-sensitive, as at line 91 of the source) is py, ts or tsx are parsed
when readable; an unreadable file keeps the default empty results (the
except branch).  The computed dependency list is attached out of band in the
source and dropped before the model is returned, so it is discarded here,
but its computation still runs and its errors still propagate. -/
def hydrateEntry (rootPath : PathSegs) (known : List String) (e : FSEntry) :
    Except String File :=
  match
    (if [".py", ".ts", ".tsx"].contains (nameSuffix (lastSeg e.path)) then
      match e.content with
      | none => Except.ok ([], [], [], none)
      | some c => hydrateFiles c (rootPath ++ e.path) rootPath known
    else
      (Except.ok ([], [], [], none) :
        Except String (List String × List String × List Function × Option String)))
  with
  | Except.error err => Except.error err
  | Except.ok (_, imps, fns, desc) =>
    Except.ok
      { name := relPathStr e.path, description := desc,
        number_of_lines := pyLineCount e.content,
        local_path := absPathStr (rootPath ++ e.path),
        imports := imps, functions := fns }

/-- Sequential effectful map: the per-file loop of the second pass, where
the first uncaught exception aborts the whole build. -/
def mapExcept {α β ε : Type} (g : α → Except ε β) : List α → Except ε (List β)
  | [] => Except.ok []
  | a :: as =>
    match g a with
    | Except.error e => Except.error e
    | Except.ok b =>
      match mapExcept g as with
      | Except.error e => Except.error e
      | Except.ok bs => Except.ok (b :: bs)

/-- The base name of a recorded file, lower-cased, as recomputed by the
bucketing step from the stored relative name. -/
def fileBaseLower (f : File) : String :=
  toLowerStr (lastSeg (splitOnChar '/' f.name))

/-- The readme test of the bucketing step. -/
def isReadmeFile (f : File) : Bool := strStartsWith (fileBaseLower f) "readme"

/-- The manifest test of the bucketing step. -/
def isPackageFile (f : File) : Bool := manifestNames.contains (fileBaseLower f)

/-- The bucketing loop (repo_analyzer.py lines 127 to 142): readme first,
then manifests, then regular files, preserving order. -/
def bucketFiles : List File → List File × List File × List File
  | [] => ([], [], [])
  | f :: rest =>
    let b := bucketFiles rest
    if isReadmeFile f then (f :: b.1, b.2.1, b.2.2)
    else if isPackageFile f then (b.1, f :: b.2.1, b.2.2)
    else (b.1, b.2.1, f :: b.2.2)

/-- The hydrated File records of the second pass, in traversal order (the
dict keyed by relative path preserves insertion order and the walk yields
each file once). -/
def buildFileObjs (fs : FS) : Except String (List File) :=
  mapExcept (hydrateEntry fs.rootPath (allFilePaths fs)) (includedEntries fs)

/-- build_repo_model: a missing root is the one explicit failure; otherwise
the two passes run and the hydrated files are bucketed into the model.
Uncaught per-file exceptions (pathlib ValueError from import resolution)
propagate out of the builder. -/
def buildRepoModel (fs : FS) : Except String Repo :=
  if fs.rootExists then
    match buildFileObjs fs with
    | Except.error e => Except.error e
    | Except.ok objs =>
      Except.ok
        { readme := (bucketFiles objs).1,
          directories := directoriesList fs,
          files := (bucketFiles objs).2.2,
          package_files := (bucketFiles objs).2.1 }
  else Except.error "Path does not exist"

/-! ### Definitions taken from the spec's words (for refinement claims) -/

/-- Modelled from the spec: "number_of_lines (count of newline-terminated
lines, 0 if unreadable)".  The count of newline-terminated lines of a text
is the number of newline characters in it. -/
def newlineTerminatedCount (s : String) : Nat := s.toList.count '\n'

/-- The correction term relating the code's line count to the spec's: one
extra line when the text ends with a character other than a newline. -/
def trailingFragment (s : String) : Nat :=
  match s.toList.getLast? with
  | some c => if c = '\n' then 0 else 1
  | none => 0

/-! ### Helper lemmas -/

/-- Tail term of the line-count invariant, on character lists. -/
def trailingAux (cs : List Char) (b : Bool) : Nat :=
  match cs.getLast? with
  | some c => if c = '\n' then 0 else 1
  | none => if b then 1 else 0

lemma trailingFragment_eq (s : String) : trailingFragment s = trailingAux s.toList false := by
  unfold trailingFragment trailingAux
  cases s.toList.getLast? <;> simp

lemma countLinesAux_eq (cs : List Char) : ∀ b : Bool,
    countLinesAux cs b = cs.count '\n' + trailingAux cs b := by
  induction cs with
  | nil => intro b; cases b <;> simp [countLinesAux, trailingAux]
  | cons c cs ih =>
    intro b
    cases cs with
    | nil =>
      by_cases hc : c = '\n' <;>
        simp [countLinesAux, trailingAux, hc, List.count_cons]
    | cons c2 cs2 =>
      have hlast : (c :: c2 :: cs2).getLast? = (c2 :: cs2).getLast? :=
        List.getLast?_cons_cons
      have htail : ∀ b2 : Bool, trailingAux (c :: c2 :: cs2) b = trailingAux (c2 :: cs2) b2 := by
        intro b2; unfold trailingAux; rw [hlast]
        cases h : (c2 :: cs2).getLast? with
        | none => simp at h
        | some x => simp
      by_cases hc : c = '\n'
      · rw [show countLinesAux (c :: c2 :: cs2) b = 1 + countLinesAux (c2 :: cs2) false by
          simp [countLinesAux, hc]]
        rw [ih false, htail false]
        simp [List.count_cons, hc]
        omega
      · rw [show countLinesAux (c :: c2 :: cs2) b = countLinesAux (c2 :: cs2) true by
          simp [countLinesAux, hc]]
        rw [ih true, htail true]
        simp [List.count_cons, hc]

/-- The code's line count equals the spec's newline-terminated count plus
one for a final unterminated fragment. -/
lemma countLines_eq_spec (c : String) :
    countLines c = newlineTerminatedCount c + trailingFragment c := by
  rw [countLines, countLinesAux_eq c.toList false, trailingFragment_eq]
  rfl

lemma mapExcept_ok_mem {α β ε : Type} (g : α → Except ε β) :
    ∀ (l : List α) (bs : List β), mapExcept g l = Except.ok bs →
      ∀ b ∈ bs, ∃ a, a ∈ l ∧ g a = Except.ok b := by
  intro l
  induction l with
  | nil =>
    intro bs h b hb
    simp only [mapExcept] at h
    injection h with h
    subst h
    simp at hb
  | cons a as ih =>
    intro bs h b hb
    unfold mapExcept at h
    cases hga : g a with
    | error e => rw [hga] at h; exact absurd h (by simp)
    | ok b0 =>
      rw [hga] at h
      cases hm : mapExcept g as with
      | error e => rw [hm] at h; exact absurd h (by simp)
      | ok bs0 =>
        rw [hm] at h
        injection h with h
        subst h
        rcases List.mem_cons.mp hb with rfl | hb2
        · exact ⟨a, List.mem_cons_self a as, hga⟩
        · obtain ⟨a2, ha2, hga2⟩ := ih bs0 hm b hb2
          exact ⟨a2, List.mem_cons_of_mem a ha2, hga2⟩

/-- The bucketing loop is the triple of complementary filters. -/
lemma bucketFiles_eq_filters (l : List File) :
    bucketFiles l =
      (l.filter (fun f => isReadmeFile f),
       l.filter (fun f => !isReadmeFile f && isPackageFile f),
       l.filter (fun f => !isReadmeFile f && !isPackageFile f)) := by
  induction l with
  | nil => simp [bucketFiles]
  | cons g rest ih =>
    cases h1 : isReadmeFile g <;> cases h2 : isPackageFile g <;>
      simp [bucketFiles, ih, List.filter_cons, h1, h2]

lemma hydrateEntry_ok_fields (rootPath : PathSegs) (known : List String) (e : FSEntry)
    (f : File) (h : hydrateEntry rootPath known e = Except.ok f) :
    f.name = relPathStr e.path ∧ f.number_of_lines = pyLineCount e.content := by
  unfold hydrateEntry at h
  split at h
  · exact absurd h (by simp)
  · injection h with h
    subst h
    exact ⟨rfl, rfl⟩

lemma buildRepoModel_ok_parts (fs : FS) (r : Repo) (h : buildRepoModel fs = Except.ok r) :
    fs.rootExists = true ∧ ∃ objs, buildFileObjs fs = Except.ok objs ∧
      r.readme = (bucketFiles objs).1 ∧ r.package_files = (bucketFiles objs).2.1 ∧
      r.files = (bucketFiles objs).2.2 ∧ r.directories = directoriesList fs := by
  unfold buildRepoModel at h
  split at h
  · next hr =>
    split at h
    · exact absurd h (by simp)
    · next objs heq =>
      injection h with h
      subst h
      exact ⟨by simpa using hr, objs, heq, rfl, rfl, rfl, rfl⟩
  · exact absurd h (by simp)

/-- A file of any bucket of a successful build is one of the hydrated
records. -/
lemma mem_buckets_mem_objs (fs : FS) (r : Repo) (objs : List File)
    (hb : buildRepoModel fs = Except.ok r) (ho : buildFileObjs fs = Except.ok objs)
    (f : File) (hf : f ∈ r.readme ∨ f ∈ r.package_files ∨ f ∈ r.files) :
    f ∈ objs := by
  obtain ⟨_, objs2, ho2, hr1, hr2, hr3, _⟩ := buildRepoModel_ok_parts fs r hb
  rw [ho] at ho2
  injection ho2 with ho2
  subst ho2
  rw [bucketFiles_eq_filters] at hr1 hr2 hr3
  rcases hf with hf | hf | hf
  · rw [hr1] at hf; exact (List.mem_filter.mp hf).1
  · rw [hr2] at hf; exact (List.mem_filter.mp hf).1
  · rw [hr3] at hf; exact (List.mem_filter.mp hf).1

/-- A file of any bucket of a successful build originates from an included
entry of the snapshot via hydration. -/
lemma mem_buckets_from_entry (fs : FS) (r : Repo)
    (hb : buildRepoModel fs = Except.ok r)
    (f : File) (hf : f ∈ r.readme ∨ f ∈ r.package_files ∨ f ∈ r.files) :
    ∃ e, e ∈ includedEntries fs ∧
      hydrateEntry fs.rootPath (allFilePaths fs) e = Except.ok f := by
  obtain ⟨_, objs, ho, _⟩ := buildRepoModel_ok_parts fs r hb
  have hobjs : f ∈ objs := mem_buckets_mem_objs fs r objs hb ho f hf
  exact mapExcept_ok_mem _ _ _ ho f hobjs

/-! ### Concrete snapshots used by the claim theorems -/

/-- A snapshot whose root exists, holding a package with a same-directory
relative import: the module pkg slash a.py reads "from . import b" and
pkg slash b.py is present. -/
def c1fs : FS :=
  ⟨true, ["repo"], [["pkg"]],
   [⟨["pkg", "a.py"], some "from . import b"⟩, ⟨["pkg", "b.py"], some ""⟩]⟩

/-- A snapshot holding a single eligible file whose name starts with
"test". -/
def c3fs : FS := ⟨true, ["repo"], [], [⟨["test_utils.py"], some ""⟩]⟩

/-- The record built for that file. -/
def c3file : File := ⟨"test_utils.py", none, 0, "/repo/test_utils.py", [], []⟩

/-- The model built from c3fs. -/
def c3repo : Repo := ⟨[], [], [c3file], []⟩

/-- A snapshot with one readme, one manifest and one regular file. -/
def c4fs : FS :=
  ⟨true, ["repo"], [],
   [⟨["README.md"], some ""⟩, ⟨["package.json"], some ""⟩, ⟨["notes.txt"], some ""⟩]⟩

/-- The hydrated readme record of c4fs. -/
def c4readme : File := ⟨"README.md", none, 0, "/repo/README.md", [], []⟩

/-- The hydrated manifest record of c4fs. -/
def c4pkg : File := ⟨"package.json", none, 0, "/repo/package.json", [], []⟩

/-- The hydrated regular record of c4fs. -/
def c4reg : File := ⟨"notes.txt", none, 0, "/repo/notes.txt", [], []⟩

/-- The hydrated records of c4fs in traversal order. -/
def c4objs : List File := [c4readme, c4pkg, c4reg]

/-- The model built from c4fs. -/
def c4repo : Repo := ⟨[c4readme], [], [c4reg], [c4pkg]⟩

/-- A snapshot with a file under an excluded directory and a file under an
ordinary one. -/
def c5fs : FS :=
  ⟨true, ["repo"], [["node_modules"], ["src"]],
   [⟨["node_modules", "lib.js"], some ""⟩, ⟨["src", "app.py"], some ""⟩]⟩

/-- The one record built from c5fs. -/
def c5file : File := ⟨"src/app.py", none, 0, "/repo/src/app.py", [], []⟩

/-- The model built from c5fs. -/
def c5repo : Repo := ⟨[], ["src"], [c5file], []⟩

/-- A snapshot with one readable file whose text does not end with a
newline. -/
def c7fs : FS := ⟨true, ["repo"], [], [⟨["notes.txt"], some "a\nb"⟩]⟩

/-- The record built for that file: the code records two lines. -/
def c7file : File := ⟨"notes.txt", none, 2, "/repo/notes.txt", [], []⟩

/-- The model built from c7fs. -/
def c7repo : Repo := ⟨[], [], [c7file], []⟩

/-- A small snapshot used to witness determinism. -/
def c8fs : FS := ⟨true, ["repo"], [["src"]], [⟨["src", "main.py"], some ""⟩]⟩

/-- The one record built from c8fs. -/
def c8file : File := ⟨"src/main.py", none, 0, "/repo/src/main.py", [], []⟩

/-- The model built from c8fs. -/
def c8repo : Repo := ⟨[], ["src"], [c8file], []⟩

/-! ### Claim theorems -/

/-- Claim C1 (code_bug evidence): the claim says every scan of an existing
root runs to completion, with per-file read errors only degrading the file.
On the embedded code a snapshot whose root exists, containing
pkg slash a.py with the single line "from . import b" next to
pkg slash b.py, makes build_repo_model raise: the relative resolver ascends
one directory per leading dot, lands on the repository root itself, and the
subsequent relative_to call on the root with a py suffix raises a ValueError
that the per-file except clause does not catch, aborting the scan. -/
theorem claim1_crash_on_existing_root :
    c1fs.rootExists = true ∧
    buildRepoModel c1fs = Except.error "relative_to: not a subpath" :=
  ⟨rfl, by rfl⟩

/-- Claim C2 (code_bug evidence): the claim says one leading dot means
the importing file's own directory and that "from . import b" placed in
pkg slash a.py resolves to pkg slash b.py.  On the embedded code that exact input raises a
ValueError instead; and a one-dot module path ".b" from pkg slash a.py
resolves to the root-level b.py, not to pkg slash b.py, showing the ascent
is one directory per dot including the first. -/
theorem claim2_dot_import_resolution :
    resolveRelativeImport "." ["repo", "pkg", "a.py"] ["repo"] ["pkg/a.py", "pkg/b.py"]
        = Except.error "relative_to: not a subpath" ∧
    resolveRelativeImport ".b" ["repo", "pkg", "a.py"] ["repo"]
        ["pkg/a.py", "pkg/b.py", "b.py"] = Except.ok (some "b.py") ∧
    resolveRelativeImport ".b" ["repo", "pkg", "a.py"] ["repo"]
        ["pkg/a.py", "pkg/b.py", "b.py"] ≠ Except.ok (some "pkg/b.py") := by
  refine ⟨by rfl, by rfl, ?_⟩
  have hval : resolveRelativeImport ".b" ["repo", "pkg", "a.py"] ["repo"]
      ["pkg/a.py", "pkg/b.py", "b.py"] = Except.ok (some "b.py") := by rfl
  rw [hval]
  simp

/-- Claim C3 counterexample: a file named test_utils.py is accepted by
_should_include_file (the extension branch returns before the test-name
check runs) and the built model records it among the regular files, contrary
to the claimed veto. -/
theorem claim3_counterexample :
    shouldIncludeFile ["test_utils.py"] = true ∧
    buildRepoModel c3fs = Except.ok c3repo ∧ c3file ∈ c3repo.files :=
  ⟨by rfl, by rfl, by decide⟩

/-- Claim C3 amended: the test-name check of _should_include_file is dead
code — the predicate equals "no excluded ancestor segment, and the extension
is allowed or the name is a recognised manifest name", independently of
whether the base name starts with "test". -/
theorem claim3_amended_test_veto_dead (p : PathSegs) :
    shouldIncludeFile p =
      (!(p.dropLast.any shouldExcludeDirectory) &&
        (includeExtensions.contains (toLowerStr (nameSuffix (lastSeg p))) ||
          manifestNames.contains (toLowerStr (lastSeg p)))) := by
  unfold shouldIncludeFile
  cases h1 : p.dropLast.any shouldExcludeDirectory <;>
    cases h2 : includeExtensions.contains (toLowerStr (nameSuffix (lastSeg p))) <;>
      cases h3 : manifestNames.contains (toLowerStr (lastSeg p)) <;>
        cases h4 : strStartsWith (lastSeg p) "test" <;>
          simp [h1, h2, h3, h4]

/-- Claim C4: for every successful scan the three buckets partition the
hydrated file set — membership in readme is exactly a readme-named hydrated
file, membership in package_files is exactly a manifest-named hydrated file
that is not readme-named, membership in files is exactly the rest, and the
buckets are mutually exclusive with readme taking priority. -/
theorem claim4_buckets_partition (fs : FS) (r : Repo) (objs : List File)
    (hb : buildRepoModel fs = Except.ok r) (ho : buildFileObjs fs = Except.ok objs)
    (f : File) :
    (f ∈ r.readme ↔ f ∈ objs ∧ isReadmeFile f = true) ∧
    (f ∈ r.package_files ↔ f ∈ objs ∧ isReadmeFile f = false ∧ isPackageFile f = true) ∧
    (f ∈ r.files ↔ f ∈ objs ∧ isReadmeFile f = false ∧ isPackageFile f = false) ∧
    (f ∈ r.readme → f ∉ r.package_files ∧ f ∉ r.files) ∧
    (f ∈ r.package_files → f ∉ r.files) := by
  obtain ⟨_, objs2, ho2, hr1, hr2, hr3, _⟩ := buildRepoModel_ok_parts fs r hb
  rw [ho] at ho2
  injection ho2 with ho2
  subst ho2
  rw [bucketFiles_eq_filters] at hr1 hr2 hr3
  simp only [hr1, hr2, hr3, List.mem_filter, Bool.and_eq_true, Bool.not_eq_true',
    Bool.not_eq_true]
  constructor
  · tauto
  constructor
  · tauto
  constructor
  · tauto
  constructor
  · rintro ⟨hm, hr⟩
    constructor
    · rintro ⟨-, hf, -⟩; rw [hr] at hf; cases hf
    · rintro ⟨-, hf, -⟩; rw [hr] at hf; cases hf
  · rintro ⟨hm, hr, hp⟩ ⟨-, -, hp2⟩
    rw [hp] at hp2; cases hp2

/-- Claim C4 witness at a concrete snapshot with one file of each kind. -/
theorem claim4_witness :
    c4readme ∈ c4repo.readme ∧ c4readme ∉ c4repo.package_files ∧ c4readme ∉ c4repo.files := by
  have h := claim4_buckets_partition c4fs c4repo c4objs (by rfl) (by rfl) c4readme
  have hm : c4readme ∈ c4repo.readme := h.1.mpr ⟨by decide, by decide⟩
  exact ⟨hm, (h.2.2.2.1 hm).1, (h.2.2.2.1 hm).2⟩

/-- Claim C5: every file of any bucket of a successful build stems from a
snapshot entry whose ancestor directory segments are all outside the
case-insensitive exclusion set, and carries that entry's root-relative path
as its name — hence no file beneath an excluded directory name ever appears
in the model, regardless of its extension. -/
theorem claim5_no_file_under_excluded_dir (fs : FS) (r : Repo)
    (hb : buildRepoModel fs = Except.ok r) (f : File)
    (hf : f ∈ r.readme ∨ f ∈ r.package_files ∨ f ∈ r.files) :
    ∃ e, e ∈ fs.entries ∧ f.name = relPathStr e.path ∧
      ∀ part ∈ e.path.dropLast, shouldExcludeDirectory part = false := by
  obtain ⟨e, he, hge⟩ := mem_buckets_from_entry fs r hb f hf
  simp only [includedEntries] at he
  have hmem := List.mem_filter.mp he
  obtain ⟨hname, -⟩ := hydrateEntry_ok_fields _ _ _ _ hge
  refine ⟨e, hmem.1, hname, ?_⟩
  intro part hp
  have hv : visitedByWalk e = true := by
    have h2 := hmem.2
    simp only [Bool.and_eq_true] at h2
    exact h2.1
  have hall : ∀ x ∈ e.path.dropLast, shouldExcludeDirectory x = false := by
    simpa [visitedByWalk] using hv
  exact hall part hp

/-- Claim C5 witness: in a snapshot holding node_modules slash lib.js and
src slash app.py, the one recorded file stems from the clean entry. -/
theorem claim5_witness :
    ∃ e, e ∈ c5fs.entries ∧ c5file.name = relPathStr e.path ∧
      ∀ part ∈ e.path.dropLast, shouldExcludeDirectory part = false :=
  claim5_no_file_under_excluded_dir c5fs c5repo (by rfl) c5file (Or.inr (Or.inr (by decide)))

/-- Claim C6: TypeScript relative resolution probes ts, then tsx, then js,
then the index files: importing "./y" from src slash x.ts finds the sibling
src slash y.tsx when no y.ts exists, prefers src slash y.ts when both exist,
and importing "./z" falls through to src slash z slash index.tsx. -/
theorem claim6_ts_resolution :
    resolveTsRelativeImport "./y" ["repo", "src", "x.ts"] ["repo"]
        ["src/x.ts", "src/y.tsx"] = Except.ok (some "src/y.tsx") ∧
    resolveTsRelativeImport "./y" ["repo", "src", "x.ts"] ["repo"]
        ["src/x.ts", "src/y.ts", "src/y.tsx"] = Except.ok (some "src/y.ts") ∧
    resolveTsRelativeImport "./z" ["repo", "src", "x.ts"] ["repo"]
        ["src/x.ts", "src/z/index.tsx"] = Except.ok (some "src/z/index.tsx") :=
  ⟨by rfl, by rfl, by rfl⟩

/-- Claim C7 counterexample: for the readable text with one newline and a
trailing fragment, the built record counts two lines while the spec's
newline-terminated count is one. -/
theorem claim7_counterexample :
    buildRepoModel c7fs = Except.ok c7repo ∧
    c7file.number_of_lines = 2 ∧ newlineTerminatedCount "a\nb" = 1 :=
  ⟨by rfl, rfl, by decide⟩

/-- Claim C7 amended: every recorded file's number_of_lines is zero when the
file is unreadable, and otherwise equals the count of newline-terminated
lines plus one when the text ends with a character other than a newline. -/
theorem claim7_number_of_lines (fs : FS) (r : Repo)
    (hb : buildRepoModel fs = Except.ok r) (f : File)
    (hf : f ∈ r.readme ∨ f ∈ r.package_files ∨ f ∈ r.files) :
    ∃ e, e ∈ fs.entries ∧ f.name = relPathStr e.path ∧
      (e.content = none → f.number_of_lines = 0) ∧
      (∀ c, e.content = some c →
        f.number_of_lines = newlineTerminatedCount c + trailingFragment c) := by
  obtain ⟨e, he, hge⟩ := mem_buckets_from_entry fs r hb f hf
  simp only [includedEntries] at he
  have hmem := List.mem_filter.mp he
  obtain ⟨hname, hcount⟩ := hydrateEntry_ok_fields _ _ _ _ hge
  refine ⟨e, hmem.1, hname, ?_, ?_⟩
  · intro hc; rw [hcount, hc]; rfl
  · intro c hc
    rw [hcount, hc]
    exact countLines_eq_spec c

/-- Claim C7 witness at the concrete snapshot of the counterexample. -/
theorem claim7_witness :
    ∃ e, e ∈ c7fs.entries ∧ c7file.name = relPathStr e.path ∧
      (e.content = none → c7file.number_of_lines = 0) ∧
      (∀ c, e.content = some c →
        c7file.number_of_lines = newlineTerminatedCount c + trailingFragment c) :=
  claim7_number_of_lines c7fs c7repo (by rfl) c7file (Or.inr (Or.inr (by decide)))

/-- Claim C8: the builder is a pure function of the snapshot — two runs on
identical snapshots produce models equal in every field, including the order
of the directories list and of all file buckets. -/
theorem claim8_deterministic (fs1 fs2 : FS) (h : fs1 = fs2) (r1 r2 : Repo)
    (h1 : buildRepoModel fs1 = Except.ok r1) (h2 : buildRepoModel fs2 = Except.ok r2) :
    r1.readme = r2.readme ∧ r1.directories = r2.directories ∧
    r1.files = r2.files ∧ r1.package_files = r2.package_files := by
  subst h
  rw [h1] at h2
  injection h2 with h2
  subst h2
  exact ⟨rfl, rfl, rfl, rfl⟩

/-- Claim C8 witness: two runs of the builder on the same concrete snapshot. -/
theorem claim8_witness :
    c8repo.readme = c8repo.readme ∧ c8repo.directories = c8repo.directories ∧
    c8repo.files = c8repo.files ∧ c8repo.package_files = c8repo.package_files :=
  claim8_deterministic c8fs c8fs rfl c8repo c8repo (by rfl) (by rfl)

/-- Claim C9: on the three-line Python file defining add, the extractor
yields exactly one Function named add with raw arguments "a, b" and the
single-line docstring "Adds two numbers." as its description (both
triple-quote markers sit on one line, so the single-line branch applies). -/
theorem claim9_python_function_extraction :
    extractPythonInfo "def add(a, b):\n    \"\"\"Adds two numbers.\"\"\"\n    return a + b"
        ["repo", "util.py"] ["repo"] []
      = Except.ok ([], [], [Function.mk "add" "a, b" (some "Adds two numbers.")], none) :=
  by rfl

/-- Claim C10: the bare-method capture of the TypeScript extractor produces
no Function whenever the stripped line starts with the character sequence
"if", "for" or "while" — the guard is a string-prefix test on the line, not
an identifier comparison. -/
theorem claim10_method_guard_prefix (desc : Option String) (line : String)
    (h : strStartsWith (pyStrip line) "if" = true ∨
      strStartsWith (pyStrip line) "for" = true ∨
      strStartsWith (pyStrip line) "while" = true) :
    tsMethodCapture desc line = none := by
  unfold tsMethodCapture
  cases hm : matchTsMethod line with
  | none => rfl
  | some pr =>
    rcases pr with ⟨nm, args⟩
    rcases h with h | h | h <;> simp [h]

/-- Claim C10 witness: the method regex itself matches the format line, yet
the guarded capture drops it because "format" starts with "for"; likewise a
whileTrue method is dropped, and a control-flow line with the name "if" is
dropped. -/
theorem claim10_witness :
    (strStartsWith (pyStrip "format(a, b) \x7b") "for" = true ∧
      tsMethodCapture none "format(a, b) \x7b" = none) ∧
    (strStartsWith (pyStrip "whileTrue() \x7b") "while" = true ∧
      tsMethodCapture none "whileTrue() \x7b" = none) ∧
    matchTsMethod "format(a, b) \x7b" = some ("format", "a, b") ∧
    tsMethodCapture none "if (x) \x7b" = none :=
  ⟨⟨by decide,
    claim10_method_guard_prefix none "format(a, b) \x7b" (Or.inr (Or.inl (by decide)))⟩,
   ⟨by decide,
    claim10_method_guard_prefix none "whileTrue() \x7b" (Or.inr (Or.inr (by decide)))⟩,
   by decide, by decide⟩

end WikiGen
